import Mathlib

/-!
Shallow embedding of the signature-resolution and CLI output-path logic of
heimdall-rs, together with theorems settling the specification claims about
them.

Source files embedded:
  - src/common/src/ether/signatures.rs  (`ResolvedError`, `ResolvedLog`,
    `ResolvedFunction`, their `resolve` implementations, `score_signature`)
  - src/cli/src/main.rs                 (output-path selection, dump CSV lines)

Conventions of the embedding:
  - Rust `&str` / `String` are Lean `String`; character-level operations work
    on `String.data : List Char`.  The signature strings this code handles are
    ASCII, where Rust `String::len` (UTF-8 bytes) coincides with the character
    count and `char::is_numeric` coincides with the ASCII digit test; the
    embedding uses those ASCII readings.
  - Rust `u32` arithmetic is `Nat` reduced modulo 2^32 (release-mode wrapping
    semantics; debug builds panic at the same inputs, so at any input where
    the wrapped value departs from the mathematical value the Rust code does
    not produce that mathematical value either way).
  - The effectful context of `resolve` (on-disk cache, HTTP backend) is passed
    in explicitly and the cache writes are returned, so `resolve` becomes a
    pure function of (cache contents, backend response, selector).
  - A Rust panic (`Result::unwrap` on `Err`) is `Except.error`.
-/

/-! ## String helpers mirroring the Rust string operations used by the source -/

/-- Rust `str::split(c)` semantics on characters: splitting the empty string
yields one empty piece, and every separator contributes a boundary. -/
def splitOnChar (c : Char) : List Char → List (List Char)
  | [] => [[]]
  | x :: xs =>
    match splitOnChar c xs with
    | [] => [[]]
    | h :: t => if x = c then [] :: h :: t else (x :: h) :: t

/-- Rust `str::split_once(c)`: the pieces strictly before and after the first
occurrence of `c`, or `none` when `c` does not occur. -/
def splitOnceChar (c : Char) : List Char → Option (List Char × List Char)
  | [] => none
  | x :: xs =>
    if x = c then some ([], xs)
    else
      match splitOnceChar c xs with
      | none => none
      | some (a, b) => some (x :: a, b)

/-- Delete the first occurrence of `c`, if any. -/
def removeFirstChar (c : Char) : List Char → List Char
  | [] => []
  | x :: xs => if x = c then xs else x :: removeFirstChar c xs

/-- Modelled from the spec: `replace_last(s, ")", "")` comes from
`crate::utils::strings::replace_last`, which is not under src/; it replaces the
last occurrence of the pattern with the replacement (here: deletes the last
`)`), leaving the string unchanged when the pattern does not occur.  The spec
describes its effect in `resolve` as keeping the parameter text of the
signature. -/
def replace_last_paren (l : List Char) : List Char :=
  (removeFirstChar ')' l.reverse).reverse

/-- Rust `str::replace('"', "")`: delete every occurrence of the character. -/
def replaceCharAll (c : Char) (s : String) : String :=
  ⟨s.data.filter (fun x => ¬ (x = c))⟩

/-- Rust `str::split(',')` producing `String` pieces. -/
def splitOnComma (s : String) : List String :=
  (splitOnChar ',' s.data).map (fun l => ⟨l⟩)

/-! ## `score_signature` (src/common/src/ether/signatures.rs lines 287-299) -/

/-- Embeds `signature.matches(|c: char| c.is_numeric()).count()`: the number of
numeric characters.  On the ASCII signature strings this code scores,
`char::is_numeric` is exactly the ASCII digit test. -/
def count_is_numeric (s : String) : Nat :=
  (s.data.filter (fun c => c.isDigit)).length

/-- Rust `u32` wrapping subtraction (release semantics); both arguments are
first reduced into `u32` range. -/
def u32_wrapping_sub (a b : Nat) : Nat :=
  ((a % 4294967296) + (4294967296 - b % 4294967296)) % 4294967296

/-- Embeds `score_signature` from src/common/src/ether/signatures.rs: the score
starts at 1000, the `u32` length of the signature is subtracted, then three
times the `u32` count of numeric characters is subtracted.  The subtractions
are `u32` subtractions (wrapping in release builds). -/
def score_signature (signature : String) : Nat :=
  let score : Nat := 1000
  let score := u32_wrapping_sub score (signature.length % 4294967296)
  let score := u32_wrapping_sub score (((count_is_numeric signature % 4294967296) * 3) % 4294967296)
  score

/-! ## A model of `serde_json::Value`, as used by the resolve implementations -/

/-- Embeds `serde_json::Value`.  Only objects, arrays and strings are touched by the
source, but the full shape is kept so that `.get`, `.as_array` and `Display`
behave as in serde for every constructor. -/
inductive Json where
  | null
  | bool (b : Bool)
  | num (n : Int)
  | str (s : String)
  | arr (items : List Json)
  | obj (fields : List (String × Json))
deriving Repr

/-- Embeds `Value::get(key)`: field lookup on objects, `None` on anything else. -/
def Json.get (j : Json) (key : String) : Option Json :=
  match j with
  | .obj fields => (fields.find? (fun kv => kv.1 = key)).map (fun kv => kv.2)
  | _ => none

/-- Embeds `Value::as_array()`. -/
def Json.as_array : Json → Option (List Json)
  | .arr items => some items
  | _ => none

mutual

/-- Embeds `Value::to_string()` (serde's compact `Display`).  String escaping inside
values is elided: the resolve code only ever renders backend `"text"` values,
which are plain signature strings. -/
def Json.render : Json → String
  | .null => "null"
  | .bool b => if b then ("true") else ("false")
  | .num n => toString n
  | .str s => "\"" ++ s ++ "\""
  | .arr items => "[" ++ Json.renderItems items ++ "]"
  | .obj fields => "\x7b" ++ Json.renderFields fields ++ "\x7d"

def Json.renderItems : List Json → String
  | [] => ""
  | [j] => Json.render j
  | j :: js => Json.render j ++ "," ++ Json.renderItems js

def Json.renderFields : List (String × Json) → String
  | [] => ""
  | [(k, v)] => "\"" ++ k ++ "\":" ++ Json.render v
  | (k, v) :: fs => "\"" ++ k ++ "\":" ++ Json.render v ++ "," ++ Json.renderFields fs

end

/-! ## The resolved-signature data model (src/common/src/ether/signatures.rs) -/

/-- Embeds `ethers::abi::Token`, opaque to this file: `resolve` never constructs one
(`decoded_inputs` is always `None`). -/
inductive Token where
  | abi_token
deriving DecidableEq, Repr

/-- Embeds struct `ResolvedFunction` (lines 8-14). -/
structure ResolvedFunction where
  name : String
  signature : String
  inputs : List String
  decoded_inputs : Option (List Token)
deriving DecidableEq, Repr

/-- Embeds struct `ResolvedError` (lines 16-21). -/
structure ResolvedError where
  name : String
  signature : String
  inputs : List String
deriving DecidableEq, Repr

/-- Embeds struct `ResolvedLog` (lines 23-28). -/
structure ResolvedLog where
  name : String
  signature : String
  inputs : List String
deriving DecidableEq, Repr

/-- Modelled from the spec: the on-disk cache (`heimdall_cache`, not under
src/) is a key-value store owned by a collaborator ("caching and network
policy belong to the collaborator").  All three resolved kinds carry the same
`(name, signature, inputs)` record (plus, for functions, a `decoded_inputs`
that `resolve` always stores as `None`), so a cache entry is that common
record. -/
structure CachedSignature where
  name : String
  signature : String
  inputs : List String
deriving DecidableEq, Repr

/-- The cache contents seen by one `resolve` call: value stored per key. -/
def CacheState : Type := String → Option (List CachedSignature)

def CachedSignature.toError (e : CachedSignature) : ResolvedError :=
  ⟨e.name, e.signature, e.inputs⟩

def CachedSignature.toLog (e : CachedSignature) : ResolvedLog :=
  ⟨e.name, e.signature, e.inputs⟩

def CachedSignature.toFunction (e : CachedSignature) : ResolvedFunction :=
  ⟨e.name, e.signature, e.inputs, none⟩

def ResolvedError.toCached (e : ResolvedError) : CachedSignature :=
  ⟨e.name, e.signature, e.inputs⟩

def ResolvedLog.toCached (e : ResolvedLog) : CachedSignature :=
  ⟨e.name, e.signature, e.inputs⟩

def ResolvedFunction.toCached (e : ResolvedFunction) : CachedSignature :=
  ⟨e.name, e.signature, e.inputs⟩

/-- The key under which all three `resolve` implementations read and write the
cache: `format!("selector.{selector}")`. -/
def cacheKey (selector : String) : String :=
  "selector." ++ selector

/-- The HTTP collaborator's answer, mirroring the Rust type
`Result<Option<serde_json::Value>, _>` returned by `get_json_from_url`
(crate::utils::http, not under src/): `Except.error` is the `Err` case, on
which the source's `.unwrap()` panics. -/
def BackendResponse : Type := Except Unit (Option Json)

/-- The outcome of one `resolve` call: its return value (with `Except.error`
standing for a Rust panic) together with the `store_cache` writes it made. -/
structure ResolveOutcome (α : Type) where
  result : Except String (Option (List α))
  cacheWrites : List (String × List CachedSignature)
deriving Repr

/-- The shared body of the three signature-list loops (lines 87-108, 170-191,
253-275, textually identical in the source): extract the `"text"` field,
render it and strip `"` characters, split once on `(` into name and the rest,
and build the inputs by deleting the last `)` and splitting on `,`; items
without a `"text"` field or without a `(` are skipped (`continue`). -/
def processSignatureItem (signature : Json) : Option (String × String × List String) :=
  match signature.get ("text") with
  | none => none
  | some t =>
    let text_signature := replaceCharAll '"' (Json.render t)
    match splitOnceChar '(' text_signature.data with
    | none => none
    | some function_parts =>
      some (⟨function_parts.1⟩, text_signature,
        splitOnComma ⟨replace_last_paren function_parts.2⟩)

/-- The `for signature in results` accumulation loop of
`ResolvedError::resolve` (lines 85-108), as the source writes it: a running
`signature_list` extended at the end for each parseable item. -/
def buildErrorSignatureList (results : List Json) : List ResolvedError :=
  results.foldl
    (fun signature_list s =>
      match processSignatureItem s with
      | none => signature_list
      | some (n, sig, ins) => signature_list ++ [⟨n, sig, ins⟩])
    []

/-- The accumulation loop of `ResolvedLog::resolve` (lines 168-191). -/
def buildLogSignatureList (results : List Json) : List ResolvedLog :=
  results.foldl
    (fun signature_list s =>
      match processSignatureItem s with
      | none => signature_list
      | some (n, sig, ins) => signature_list ++ [⟨n, sig, ins⟩])
    []

/-- The accumulation loop of `ResolvedFunction::resolve` (lines 251-275);
`decoded_inputs` is set to `None`. -/
def buildFunctionSignatureList (results : List Json) : List ResolvedFunction :=
  results.foldl
    (fun signature_list s =>
      match processSignatureItem s with
      | none => signature_list
      | some (n, sig, ins) => signature_list ++ [⟨n, sig, ins, none⟩])
    []

/-- Embeds `ResolvedError::resolve` (lines 38-117).  Control flow follows the source:
cached results are returned verbatim (`None` when the cached list is empty);
otherwise the backend response is `.unwrap()`-ed (panic on `Err`), missing
JSON / missing `items` / non-array `items` return `None`, and the built list
is stored in the cache (even when empty) and returned (`None` when empty). -/
def ResolvedError.resolve (cache : CacheState) (backend : BackendResponse)
    (selector : String) : ResolveOutcome ResolvedError :=
  match cache (cacheKey selector) with
  | some cached_results =>
    match cached_results.length with
    | 0 => ⟨.ok none, []⟩
    | _ + 1 => ⟨.ok (some (cached_results.map CachedSignature.toError)), []⟩
  | none =>
    match backend with
    | .error _ => ⟨.error ("panicked: called unwrap on an Err value"), []⟩
    | .ok none => ⟨.ok none, []⟩
    | .ok (some signatures) =>
      match signatures.get ("items") with
      | none => ⟨.ok none, []⟩
      | some items =>
        match items.as_array with
        | none => ⟨.ok none, []⟩
        | some results =>
          let signature_list := buildErrorSignatureList results
          let write := (cacheKey selector, signature_list.map ResolvedError.toCached)
          match signature_list.length with
          | 0 => ⟨.ok none, [write]⟩
          | _ + 1 => ⟨.ok (some signature_list), [write]⟩

/-- Embeds `ResolvedLog::resolve` (lines 121-200), structurally identical. -/
def ResolvedLog.resolve (cache : CacheState) (backend : BackendResponse)
    (selector : String) : ResolveOutcome ResolvedLog :=
  match cache (cacheKey selector) with
  | some cached_results =>
    match cached_results.length with
    | 0 => ⟨.ok none, []⟩
    | _ + 1 => ⟨.ok (some (cached_results.map CachedSignature.toLog)), []⟩
  | none =>
    match backend with
    | .error _ => ⟨.error ("panicked: called unwrap on an Err value"), []⟩
    | .ok none => ⟨.ok none, []⟩
    | .ok (some signatures) =>
      match signatures.get ("items") with
      | none => ⟨.ok none, []⟩
      | some items =>
        match items.as_array with
        | none => ⟨.ok none, []⟩
        | some results =>
          let signature_list := buildLogSignatureList results
          let write := (cacheKey selector, signature_list.map ResolvedLog.toCached)
          match signature_list.length with
          | 0 => ⟨.ok none, [write]⟩
          | _ + 1 => ⟨.ok (some signature_list), [write]⟩

/-- Embeds `ResolvedFunction::resolve` (lines 204-284), structurally identical. -/
def ResolvedFunction.resolve (cache : CacheState) (backend : BackendResponse)
    (selector : String) : ResolveOutcome ResolvedFunction :=
  match cache (cacheKey selector) with
  | some cached_results =>
    match cached_results.length with
    | 0 => ⟨.ok none, []⟩
    | _ + 1 => ⟨.ok (some (cached_results.map CachedSignature.toFunction)), []⟩
  | none =>
    match backend with
    | .error _ => ⟨.error ("panicked: called unwrap on an Err value"), []⟩
    | .ok none => ⟨.ok none, []⟩
    | .ok (some signatures) =>
      match signatures.get ("items") with
      | none => ⟨.ok none, []⟩
      | some items =>
        match items.as_array with
        | none => ⟨.ok none, []⟩
        | some results =>
          let signature_list := buildFunctionSignatureList results
          let write := (cacheKey selector, signature_list.map ResolvedFunction.toCached)
          match signature_list.length with
          | 0 => ⟨.ok none, [write]⟩
          | _ + 1 => ⟨.ok (some signature_list), [write]⟩

/-! ## CLI output-path selection and dump CSV (src/cli/src/main.rs) -/

/-- One character class of the address regex: `[a-fA-F0-9]`. -/
def isHexChar (c : Char) : Bool :=
  c.isDigit || ('a' ≤ c && c ≤ 'f') || ('A' ≤ c && c ≤ 'F')

/-- Modelled from the spec: `ADDRESS_REGEX` lives in
`heimdall_common::constants`, which is not under src/; the spec gives it as
`^0x[a-fA-F0-9]{40}$`.  `is_match` on this anchored regex holds exactly for
strings of length 42 that start with `0x` followed by 40 hex characters. -/
def addressRegexIsMatch (s : String) : Bool :=
  decide (s.data.length = 42) &&
    (match s.data with
     | c0 :: c1 :: rest => c0 = '0' && c1 = 'x' && rest.all isHexChar
     | _ => false)

/-- The `Subcommands::Disassemble` output choice (main.rs lines 121-125):
`(dir_path, filename)`; on a regex match the directory is
`{output_path}/{target}` (no chain id), otherwise `{output_path}/local`. -/
def disassemble_dir_path (output_path target : String) : String × String :=
  if addressRegexIsMatch target then
    (output_path ++ "/" ++ target, "disassembled.asm")
  else
    (output_path ++ "/local", "disassembled.asm")

/-- The `Subcommands::Snapshot` output path (main.rs lines 305-313): on a
regex match `{output_path}/{chain_id}/{target}/snapshot.csv`, otherwise
`{output_path}/local/snapshot.csv`. -/
def snapshot_output_path (output_path chain_id target : String) : String :=
  if addressRegexIsMatch target then
    output_path ++ "/" ++ chain_id ++ "/" ++ target ++ "/snapshot.csv"
  else
    output_path ++ "/local/snapshot.csv"

/-- One row of the `dump` result.  The row type itself belongs to
`heimdall_core::dump` (not under src/); main.rs formats each of its five
fields with `Display`, so a field is embedded as its displayed string. -/
structure DumpRow where
  last_modified : String
  «alias» : String
  slot : String
  decoded_type : String
  value : String
deriving DecidableEq, Repr

/-- The CSV lines built by `Subcommands::Dump` (main.rs lines 262-277): the
header line, then one line per result row joining the five fields with
commas. -/
def dump_csv_lines (result : List DumpRow) : List String :=
  let lines : List String := [⟨"last_modified,alias,slot,decoded_type,value".data⟩]
  lines ++ result.map
    (fun row =>
      row.last_modified ++ "," ++ row.«alias» ++ "," ++ row.slot ++ "," ++
        row.decoded_type ++ "," ++ row.value)

/-! ## Claim-side definitions: spec phrases and concrete inputs -/

/-- The per-item result of the `ResolvedError::resolve` loop body. -/
def processedError (s : Json) : Option ResolvedError :=
  (processSignatureItem s).map (fun t => ⟨t.1, t.2.1, t.2.2⟩)

/-- The per-item result of the `ResolvedLog::resolve` loop body. -/
def processedLog (s : Json) : Option ResolvedLog :=
  (processSignatureItem s).map (fun t => ⟨t.1, t.2.1, t.2.2⟩)

/-- The per-item result of the `ResolvedFunction::resolve` loop body. -/
def processedFunction (s : Json) : Option ResolvedFunction :=
  (processSignatureItem s).map (fun t => ⟨t.1, t.2.1, t.2.2, none⟩)

/-- Formalizes the claim's phrase "the text between the first `(` and the
final `)`": everything strictly after the first `(` and strictly before the
last `)`. -/
def textBetweenParens (s : String) : String :=
  match splitOnceChar '(' s.data with
  | none => ""
  | some p => ⟨(((p.2.reverse).dropWhile (fun c => c != ')')).drop 1).reverse⟩

/-- Formalizes the amended claim's phrase "with the last `)` (if any)
deleted": delete the last occurrence of `c`, leaving the list unchanged when
`c` does not occur.  Written by direct forward recursion on the text,
independently of the embedding's reverse-based `replace_last_paren`. -/
def deleteLastOcc (c : Char) : List Char → List Char
  | [] => []
  | x :: xs =>
    if c ∈ xs then x :: deleteLastOcc c xs
    else if x = c then xs
    else x :: xs

/-- Formalizes the claim's phrase "a chain-id/address directory": the
directory is the output root, a slash, some chain id, a slash, the target. -/
def isChainIdAddressDir (output_path target dir : String) : Prop :=
  ∃ chain_id : String, dir = output_path ++ "/" ++ chain_id ++ "/" ++ target

/-- No field of the dump row contains a comma (so that the CSV row is
faithfully splittable). -/
def commaFreeRow (r : DumpRow) : Prop :=
  (',' ∉ r.last_modified.data) ∧ (',' ∉ r.«alias».data) ∧ (',' ∉ r.slot.data) ∧
    (',' ∉ r.decoded_type.data) ∧ (',' ∉ r.value.data)

/-- Modelled from the spec: "CollaboratorUnavailable: selector-resolution or
RPC backend failed.  Resolution falls back to the raw 4-byte selector;
analysis completes."  The HTTP collaborator `get_json_from_url`
(crate::utils::http, not under src/) reports an unavailable backend by
completing with no JSON value (its retry layer swallows request errors), so a
backend failure reaches `resolve` as `Ok(None)`. -/
def backendFailure : BackendResponse := Except.ok none

/-- A cache with no entry for any selector. -/
def emptyCache : CacheState := fun _ => none

/-- A cache holding one signature list under the key for selector
`0xdeadbeef`. -/
def cacheWithEntry : CacheState :=
  fun k =>
    if k = cacheKey ("0xdeadbeef") then some [⟨"Err", "Err(uint256)", ["uint256"]⟩]
    else none

/-- A backend answer whose first item scores strictly lower than its
second. -/
def unsortedItems : List Json :=
  [Json.obj [("text", Json.str ("a1(uint256)"))], Json.obj [("text", Json.str ("a(uint256)"))]]

/-- The full backend response wrapping `unsortedItems`. -/
def unsortedBackend : BackendResponse :=
  Except.ok (some (Json.obj [("items", Json.arr unsortedItems)]))

/-- A string of 334 digit characters: its length plus three times its digit count
exceeds 1000, so the `u32` score subtraction wraps. -/
def digitString334 : String := ⟨List.replicate 334 '1'⟩

/-- A string of 250 digit characters: length plus three times digit count is exactly
1000, the last point before the `u32` subtraction wraps. -/
def digitString250 : String := ⟨List.replicate 250 '1'⟩

/-- A string of 250 digit characters followed by one letter: one character longer than
`digitString250`, with the same digit count, and past the wrap point. -/
def digitString250a : String := ⟨List.replicate 250 '1' ++ ['a']⟩

/-- A 40-hex-digit address target matching the address regex. -/
def addrA : String := "0xaaaaaaaaaaaaaaaaaaaaaaaaaaaaaaaaaaaaaaaa"

/-! ## Helper lemmas -/

set_option maxRecDepth 100000

theorem string_data_append (a b : String) : (a ++ b).data = a.data ++ b.data := by
  cases a
  cases b
  rfl

theorem string_mk_data (s : String) : String.mk s.data = s := by
  cases s
  rfl

theorem splitOnChar_ne_nil (c : Char) (l : List Char) : splitOnChar c l ≠ [] := by
  cases l with
  | nil => simp [splitOnChar]
  | cons x xs =>
    simp only [splitOnChar]
    rcases h : splitOnChar c xs with _ | ⟨hd, tl⟩
    · simp
    · by_cases hx : x = c <;> simp [hx]

theorem splitOnChar_no_sep (c : Char) (l : List Char) (h : ∀ x ∈ l, ¬ (x = c)) :
    splitOnChar c l = [l] := by
  induction l with
  | nil => rfl
  | cons x xs ih =>
    have hx : ¬ (x = c) := h x (List.mem_cons_self x xs)
    simp only [splitOnChar, ih (fun y hy => h y (List.mem_cons_of_mem x hy)), if_neg hx]

theorem splitOnChar_append (c : Char) (xs ys : List Char) (h : ∀ x ∈ xs, ¬ (x = c)) :
    splitOnChar c (xs ++ c :: ys) = xs :: splitOnChar c ys := by
  induction xs with
  | nil =>
    simp only [List.nil_append, splitOnChar]
    rcases hy : splitOnChar c ys with _ | ⟨hd, tl⟩
    · exact absurd hy (splitOnChar_ne_nil c ys)
    · simp
  | cons x xt ih =>
    have hx : ¬ (x = c) := h x (List.mem_cons_self x xt)
    simp only [List.cons_append, splitOnChar, if_neg hx, List.append_eq]
    rw [ih (fun y hy => h y (List.mem_cons_of_mem x hy))]

theorem splitOnceChar_append (c : Char) (xs ys : List Char) (h : ∀ x ∈ xs, ¬ (x = c)) :
    splitOnceChar c (xs ++ c :: ys) = some (xs, ys) := by
  induction xs with
  | nil => simp [splitOnceChar]
  | cons x xt ih =>
    have hx : ¬ (x = c) := h x (List.mem_cons_self x xt)
    simp only [List.cons_append, splitOnceChar, if_neg hx, List.append_eq]
    rw [ih (fun y hy => h y (List.mem_cons_of_mem x hy))]

theorem removeFirstChar_cons_self (c : Char) (l : List Char) :
    removeFirstChar c (c :: l) = l := by
  simp [removeFirstChar]

theorem replace_last_paren_append_close (l : List Char) :
    replace_last_paren (l ++ [')']) = l := by
  simp [replace_last_paren, removeFirstChar_cons_self]

theorem score_signature_spec (s : String)
    (h : s.length + 3 * count_is_numeric s ≤ 1000) :
    score_signature s + (s.length + 3 * count_is_numeric s) = 1000 := by
  simp only [score_signature, u32_wrapping_sub]
  omega

theorem buildErrorSignatureList_eq (results : List Json) :
    buildErrorSignatureList results = results.filterMap processedError := by
  suffices h : ∀ acc : List ResolvedError,
      results.foldl
        (fun signature_list s =>
          match processSignatureItem s with
          | none => signature_list
          | some (n, sig, ins) => signature_list ++ [⟨n, sig, ins⟩])
        acc = acc ++ results.filterMap processedError by
    simpa using h []
  induction results with
  | nil => intro acc; simp
  | cons x xs ih =>
    intro acc
    rcases hx : processSignatureItem x with _ | ⟨n, sig, ins⟩ <;>
      simp [List.foldl_cons, List.filterMap_cons, processedError, hx, ih]

theorem buildLogSignatureList_eq (results : List Json) :
    buildLogSignatureList results = results.filterMap processedLog := by
  suffices h : ∀ acc : List ResolvedLog,
      results.foldl
        (fun signature_list s =>
          match processSignatureItem s with
          | none => signature_list
          | some (n, sig, ins) => signature_list ++ [⟨n, sig, ins⟩])
        acc = acc ++ results.filterMap processedLog by
    simpa using h []
  induction results with
  | nil => intro acc; simp
  | cons x xs ih =>
    intro acc
    rcases hx : processSignatureItem x with _ | ⟨n, sig, ins⟩ <;>
      simp [List.foldl_cons, List.filterMap_cons, processedLog, hx, ih]

theorem buildFunctionSignatureList_eq (results : List Json) :
    buildFunctionSignatureList results = results.filterMap processedFunction := by
  suffices h : ∀ acc : List ResolvedFunction,
      results.foldl
        (fun signature_list s =>
          match processSignatureItem s with
          | none => signature_list
          | some (n, sig, ins) => signature_list ++ [⟨n, sig, ins, none⟩])
        acc = acc ++ results.filterMap processedFunction by
    simpa using h []
  induction results with
  | nil => intro acc; simp
  | cons x xs ih =>
    intro acc
    rcases hx : processSignatureItem x with _ | ⟨n, sig, ins⟩ <;>
      simp [List.foldl_cons, List.filterMap_cons, processedFunction, hx, ih]

theorem resolveError_cached (cache : CacheState) (backend : BackendResponse)
    (s : String) (cl : List CachedSignature) (hc : cache (cacheKey s) = some cl) :
    ResolvedError.resolve cache backend s =
      ⟨if cl = [] then Except.ok none
       else Except.ok (some (cl.map CachedSignature.toError)), []⟩ := by
  unfold ResolvedError.resolve
  rw [hc]
  cases cl with
  | nil => rfl
  | cons a as => rfl

theorem resolveError_backend (cache : CacheState) (s : String)
    (j items : Json) (results : List Json)
    (hc : cache (cacheKey s) = none)
    (hi : Json.get j ("items") = some items)
    (ha : Json.as_array items = some results) :
    ResolvedError.resolve cache (Except.ok (some j)) s =
      ⟨if results.filterMap processedError = [] then Except.ok none
       else Except.ok (some (results.filterMap processedError)),
       [(cacheKey s, (results.filterMap processedError).map ResolvedError.toCached)]⟩ := by
  simp only [ResolvedError.resolve, hc, hi, ha, buildErrorSignatureList_eq]
  cases hL : results.filterMap processedError with
  | nil => simp [hL]
  | cons a as => simp [hL]

theorem resolveError_writes_key (cache : CacheState) (backend : BackendResponse)
    (s : String) :
    ∀ kv ∈ (ResolvedError.resolve cache backend s).cacheWrites, kv.1 = cacheKey s := by
  intro kv hkv
  rcases hc : cache (cacheKey s) with _ | cl
  · rcases backend with e | ov
    · simp [ResolvedError.resolve, hc] at hkv
    · rcases ov with _ | j
      · simp [ResolvedError.resolve, hc] at hkv
      · rcases hi : Json.get j ("items") with _ | items
        · simp [ResolvedError.resolve, hc, hi] at hkv
        · rcases ha : Json.as_array items with _ | results
          · simp [ResolvedError.resolve, hc, hi, ha] at hkv
          · rw [resolveError_backend cache s j items results hc hi ha] at hkv
            simp at hkv
            rw [hkv]
  · rw [resolveError_cached cache backend s cl hc] at hkv
    simp at hkv

theorem resolveError_some_ne_nil (cache : CacheState) (backend : BackendResponse)
    (s : String) :
    ∀ l, (ResolvedError.resolve cache backend s).result = Except.ok (some l) → l ≠ [] := by
  intro l hl
  rcases hc : cache (cacheKey s) with _ | cl
  · rcases backend with e | ov
    · simp [ResolvedError.resolve, hc] at hl
    · rcases ov with _ | j
      · simp [ResolvedError.resolve, hc] at hl
      · rcases hi : Json.get j ("items") with _ | items
        · simp [ResolvedError.resolve, hc, hi] at hl
        · rcases ha : Json.as_array items with _ | results
          · simp [ResolvedError.resolve, hc, hi, ha] at hl
          · rw [resolveError_backend cache s j items results hc hi ha] at hl
            by_cases hL : results.filterMap processedError = []
            · simp [hL] at hl
            · simp only [if_neg hL] at hl
              simp at hl
              rw [← hl]
              exact hL
  · rw [resolveError_cached cache backend s cl hc] at hl
    by_cases hcl : cl = []
    · simp [hcl] at hl
    · simp only [if_neg hcl] at hl
      simp at hl
      rw [← hl]
      simp [hcl]

theorem resolveLog_cached (cache : CacheState) (backend : BackendResponse)
    (s : String) (cl : List CachedSignature) (hc : cache (cacheKey s) = some cl) :
    ResolvedLog.resolve cache backend s =
      ⟨if cl = [] then Except.ok none
       else Except.ok (some (cl.map CachedSignature.toLog)), []⟩ := by
  unfold ResolvedLog.resolve
  rw [hc]
  cases cl with
  | nil => rfl
  | cons a as => rfl

theorem resolveLog_backend (cache : CacheState) (s : String)
    (j items : Json) (results : List Json)
    (hc : cache (cacheKey s) = none)
    (hi : Json.get j ("items") = some items)
    (ha : Json.as_array items = some results) :
    ResolvedLog.resolve cache (Except.ok (some j)) s =
      ⟨if results.filterMap processedLog = [] then Except.ok none
       else Except.ok (some (results.filterMap processedLog)),
       [(cacheKey s, (results.filterMap processedLog).map ResolvedLog.toCached)]⟩ := by
  simp only [ResolvedLog.resolve, hc, hi, ha, buildLogSignatureList_eq]
  cases hL : results.filterMap processedLog with
  | nil => simp [hL]
  | cons a as => simp [hL]

theorem resolveLog_writes_key (cache : CacheState) (backend : BackendResponse)
    (s : String) :
    ∀ kv ∈ (ResolvedLog.resolve cache backend s).cacheWrites, kv.1 = cacheKey s := by
  intro kv hkv
  rcases hc : cache (cacheKey s) with _ | cl
  · rcases backend with e | ov
    · simp [ResolvedLog.resolve, hc] at hkv
    · rcases ov with _ | j
      · simp [ResolvedLog.resolve, hc] at hkv
      · rcases hi : Json.get j ("items") with _ | items
        · simp [ResolvedLog.resolve, hc, hi] at hkv
        · rcases ha : Json.as_array items with _ | results
          · simp [ResolvedLog.resolve, hc, hi, ha] at hkv
          · rw [resolveLog_backend cache s j items results hc hi ha] at hkv
            simp at hkv
            rw [hkv]
  · rw [resolveLog_cached cache backend s cl hc] at hkv
    simp at hkv

theorem resolveLog_some_ne_nil (cache : CacheState) (backend : BackendResponse)
    (s : String) :
    ∀ l, (ResolvedLog.resolve cache backend s).result = Except.ok (some l) → l ≠ [] := by
  intro l hl
  rcases hc : cache (cacheKey s) with _ | cl
  · rcases backend with e | ov
    · simp [ResolvedLog.resolve, hc] at hl
    · rcases ov with _ | j
      · simp [ResolvedLog.resolve, hc] at hl
      · rcases hi : Json.get j ("items") with _ | items
        · simp [ResolvedLog.resolve, hc, hi] at hl
        · rcases ha : Json.as_array items with _ | results
          · simp [ResolvedLog.resolve, hc, hi, ha] at hl
          · rw [resolveLog_backend cache s j items results hc hi ha] at hl
            by_cases hL : results.filterMap processedLog = []
            · simp [hL] at hl
            · simp only [if_neg hL] at hl
              simp at hl
              rw [← hl]
              exact hL
  · rw [resolveLog_cached cache backend s cl hc] at hl
    by_cases hcl : cl = []
    · simp [hcl] at hl
    · simp only [if_neg hcl] at hl
      simp at hl
      rw [← hl]
      simp [hcl]

theorem resolveFunction_cached (cache : CacheState) (backend : BackendResponse)
    (s : String) (cl : List CachedSignature) (hc : cache (cacheKey s) = some cl) :
    ResolvedFunction.resolve cache backend s =
      ⟨if cl = [] then Except.ok none
       else Except.ok (some (cl.map CachedSignature.toFunction)), []⟩ := by
  unfold ResolvedFunction.resolve
  rw [hc]
  cases cl with
  | nil => rfl
  | cons a as => rfl

theorem resolveFunction_backend (cache : CacheState) (s : String)
    (j items : Json) (results : List Json)
    (hc : cache (cacheKey s) = none)
    (hi : Json.get j ("items") = some items)
    (ha : Json.as_array items = some results) :
    ResolvedFunction.resolve cache (Except.ok (some j)) s =
      ⟨if results.filterMap processedFunction = [] then Except.ok none
       else Except.ok (some (results.filterMap processedFunction)),
       [(cacheKey s, (results.filterMap processedFunction).map ResolvedFunction.toCached)]⟩ := by
  simp only [ResolvedFunction.resolve, hc, hi, ha, buildFunctionSignatureList_eq]
  cases hL : results.filterMap processedFunction with
  | nil => simp [hL]
  | cons a as => simp [hL]

theorem resolveFunction_writes_key (cache : CacheState) (backend : BackendResponse)
    (s : String) :
    ∀ kv ∈ (ResolvedFunction.resolve cache backend s).cacheWrites, kv.1 = cacheKey s := by
  intro kv hkv
  rcases hc : cache (cacheKey s) with _ | cl
  · rcases backend with e | ov
    · simp [ResolvedFunction.resolve, hc] at hkv
    · rcases ov with _ | j
      · simp [ResolvedFunction.resolve, hc] at hkv
      · rcases hi : Json.get j ("items") with _ | items
        · simp [ResolvedFunction.resolve, hc, hi] at hkv
        · rcases ha : Json.as_array items with _ | results
          · simp [ResolvedFunction.resolve, hc, hi, ha] at hkv
          · rw [resolveFunction_backend cache s j items results hc hi ha] at hkv
            simp at hkv
            rw [hkv]
  · rw [resolveFunction_cached cache backend s cl hc] at hkv
    simp at hkv

theorem resolveFunction_some_ne_nil (cache : CacheState) (backend : BackendResponse)
    (s : String) :
    ∀ l, (ResolvedFunction.resolve cache backend s).result = Except.ok (some l) → l ≠ [] := by
  intro l hl
  rcases hc : cache (cacheKey s) with _ | cl
  · rcases backend with e | ov
    · simp [ResolvedFunction.resolve, hc] at hl
    · rcases ov with _ | j
      · simp [ResolvedFunction.resolve, hc] at hl
      · rcases hi : Json.get j ("items") with _ | items
        · simp [ResolvedFunction.resolve, hc, hi] at hl
        · rcases ha : Json.as_array items with _ | results
          · simp [ResolvedFunction.resolve, hc, hi, ha] at hl
          · rw [resolveFunction_backend cache s j items results hc hi ha] at hl
            by_cases hL : results.filterMap processedFunction = []
            · simp [hL] at hl
            · simp only [if_neg hL] at hl
              simp at hl
              rw [← hl]
              exact hL
  · rw [resolveFunction_cached cache backend s cl hc] at hl
    by_cases hcl : cl = []
    · simp [hcl] at hl
    · simp only [if_neg hcl] at hl
      simp at hl
      rw [← hl]
      simp [hcl]

theorem replaceCharAll_quote_free (s : String) (hq : '"' ∉ s.data) :
    replaceCharAll '"' ("\"" ++ s ++ "\"") = s := by
  have h3 : List.filter (fun x => !decide (x = '"')) s.data = s.data :=
    List.filter_eq_self.mpr (fun a ha => by
      simp only [Bool.not_eq_true', decide_eq_false_iff_not]
      exact fun he => hq (he ▸ ha))
  simp only [replaceCharAll, string_data_append, List.filter_append, List.filter_cons]
  simp [h3, string_mk_data]

theorem processSignatureItem_str (s : String) (hq : '"' ∉ s.data) :
    processSignatureItem (Json.obj [("text", Json.str s)]) =
      match splitOnceChar '(' s.data with
      | none => none
      | some p => some (⟨p.1⟩, s, splitOnComma ⟨replace_last_paren p.2⟩) := by
  have hget : Json.get (Json.obj [("text", Json.str s)]) ("text") = some (Json.str s) := rfl
  have hrender : Json.render (Json.str s) = "\"" ++ s ++ "\"" := rfl
  simp only [processSignatureItem, hget, hrender, replaceCharAll_quote_free s hq]

theorem splitOnComma_append_field (a : String) (rest : List Char)
    (ha : ',' ∉ a.data) :
    splitOnChar ',' (a.data ++ ',' :: rest) = a.data :: splitOnChar ',' rest :=
  splitOnChar_append ',' a.data rest (fun _x hx hxc => ha (hxc ▸ hx))

theorem splitOnComma_five (a b c d e : String)
    (ha : ',' ∉ a.data) (hb : ',' ∉ b.data) (hc : ',' ∉ c.data)
    (hd : ',' ∉ d.data) (he : ',' ∉ e.data) :
    splitOnComma (a ++ "," ++ b ++ "," ++ c ++ "," ++ d ++ "," ++ e) =
      [a, b, c, d, e] := by
  have hcomma : ("," : String).data = [','] := rfl
  simp only [splitOnComma, string_data_append, hcomma, List.append_assoc,
    List.singleton_append, List.cons_append, List.nil_append]
  rw [splitOnComma_append_field a _ ha, splitOnComma_append_field b _ hb,
    splitOnComma_append_field c _ hc, splitOnComma_append_field d _ hd,
    splitOnChar_no_sep ',' e.data (fun x hx hxc => he (hxc ▸ hx))]
  simp [string_mk_data]

theorem addressRegexIsMatch_iff (s : String) :
    addressRegexIsMatch s = true ↔
      (s.data.length = 42 ∧ s.data.take 2 = ['0', 'x'] ∧
        ∀ c ∈ s.data.drop 2, isHexChar c = true) := by
  rcases hs : s.data with _ | ⟨c0, rest1⟩
  · simp [addressRegexIsMatch, hs]
  · rcases rest1 with _ | ⟨c1, rest⟩
    · simp [addressRegexIsMatch, hs]
    · simp only [addressRegexIsMatch, hs, List.length_cons, List.take, List.drop,
        Bool.and_eq_true, decide_eq_true_eq, List.all_eq_true, List.cons.injEq,
        List.take_nil, and_true]

theorem splitOnceChar_not_mem (c : Char) (l : List Char) (h : c ∉ l) :
    splitOnceChar c l = none := by
  induction l with
  | nil => rfl
  | cons x xs ih =>
    simp only [splitOnceChar]
    rw [if_neg (by rintro rfl; exact h (List.mem_cons_self x xs)),
      ih (fun hm => h (List.mem_cons_of_mem x hm))]

theorem removeFirstChar_append (c : Char) (a b : List Char) :
    removeFirstChar c (a ++ b) =
      if c ∈ a then removeFirstChar c a ++ b else a ++ removeFirstChar c b := by
  induction a with
  | nil => simp
  | cons x xs ih =>
    by_cases hx : x = c
    · subst hx
      simp [removeFirstChar, List.mem_cons]
    · by_cases hm : c ∈ xs
      · simp [removeFirstChar, hx, ih, hm, List.mem_cons, Ne.symm hx]
      · simp [removeFirstChar, hx, ih, hm, List.mem_cons, Ne.symm hx]

theorem replace_last_paren_eq_deleteLastOcc (l : List Char) :
    replace_last_paren l = deleteLastOcc ')' l := by
  induction l with
  | nil => rfl
  | cons x xs ih =>
    simp only [replace_last_paren, List.reverse_cons, removeFirstChar_append,
      deleteLastOcc, List.mem_reverse]
    by_cases hm : ')' ∈ xs
    · simp only [hm, if_true, List.reverse_append, List.reverse_cons, List.reverse_nil,
        List.nil_append, List.singleton_append]
      rw [← ih]
      rfl
    · by_cases hx : x = ')'
      · subst hx
        simp [hm, removeFirstChar]
      · simp [hm, hx, removeFirstChar]

/-! ## Claim theorems -/

/-- C1 (amended): for every signature string whose length plus three times
its digit count is at most 1000 (so that the `u32` subtractions do not wrap),
`score_signature s` equals `1000 − len(s) − 3·count_digits(s)`. -/
theorem c1_score_formula (s : String)
    (h : s.length + 3 * count_is_numeric s ≤ 1000) :
    (score_signature s : Int) =
      1000 - (s.length : Int) - 3 * (count_is_numeric s : Int) := by
  have hs := score_signature_spec s h
  omega

/-- C1 witness: the formula evaluated at `a(uint256)` (length 10, 3 digits,
score 981). -/
theorem c1_score_formula_witness :
    "a(uint256)".length + 3 * count_is_numeric ("a(uint256)") ≤ 1000 ∧
    (score_signature ("a(uint256)") : Int) =
      1000 - ("a(uint256)".length : Int) - 3 * (count_is_numeric ("a(uint256)") : Int) :=
  ⟨by decide, c1_score_formula ("a(uint256)") (by decide)⟩

/-- C1 counterexample: at a 334-digit signature the `u32` subtraction wraps
(`score = 2^32 − 336`), so the claimed equation `score = 1000 − len −
3·digits` fails both as integers (`−336`) and as truncated naturals (`0`). -/
theorem c1_counterexample :
    ¬ ((score_signature digitString334 : Int) =
        1000 - (digitString334.length : Int) - 3 * (count_is_numeric digitString334 : Int)) ∧
    ¬ (score_signature digitString334 =
        1000 - digitString334.length - 3 * count_is_numeric digitString334) := by
  constructor <;> decide

/-- C4 (amended): at fixed digit count the score is strictly decreasing in
length, provided the longer signature stays within the non-wrapping range
(`len + 3·digits ≤ 1000`) of the `u32` subtractions. -/
theorem c4_score_monotone (s1 s2 : String)
    (hd : count_is_numeric s1 = count_is_numeric s2)
    (hl : s1.length < s2.length)
    (hb : s2.length + 3 * count_is_numeric s2 ≤ 1000) :
    score_signature s1 > score_signature s2 := by
  have h1 := score_signature_spec s1 (by omega)
  have h2 := score_signature_spec s2 hb
  omega

/-- C4 witness: `ab(int8)` versus `abc(int8)` (same single digit, lengths 8
and 9, scores 989 and 988). -/
theorem c4_score_monotone_witness :
    count_is_numeric ("ab(int8)") = count_is_numeric ("abc(int8)") ∧
    "ab(int8)".length < "abc(int8)".length ∧
    "abc(int8)".length + 3 * count_is_numeric ("abc(int8)") ≤ 1000 ∧
    score_signature ("ab(int8)") > score_signature ("abc(int8)") :=
  ⟨by decide, by decide, by decide,
    c4_score_monotone ("ab(int8)") "abc(int8)" (by decide) (by decide) (by decide)⟩

/-- C4 counterexample: 250 digits versus 250 digits plus one letter — equal
digit counts and strictly increasing length, yet the score jumps from 0 to
`2^32 − 1` because the second `u32` subtraction wraps. -/
theorem c4_counterexample :
    count_is_numeric digitString250 = count_is_numeric digitString250a ∧
    digitString250.length < digitString250a.length ∧
    ¬ (score_signature digitString250 > score_signature digitString250a) := by
  refine ⟨by decide, by decide, by decide⟩

/-- C5: the two concrete score comparisons from the spec:
`score("a(uint256)") > score("a(uint256,uint256)")` (981 > 964) and
`score("a(uint256)") > score("a1(uint256)")` (981 > 977). -/
theorem c5_score_examples :
    score_signature ("a(uint256)") > score_signature ("a(uint256,uint256)") ∧
    score_signature ("a(uint256)") > score_signature ("a1(uint256)") := by
  constructor <;> decide

/-- C3: when the selector-resolution backend fails (which reaches `resolve`
as `Ok(None)`, see `backendFailure`), every kind of `resolve` completes
normally — no panic, no error — returning `None`, the value on which the
caller keeps the raw 4-byte selector. -/
theorem c3_backend_failure_completes (cache : CacheState) (s : String)
    (hc : cache (cacheKey s) = none) :
    (ResolvedError.resolve cache backendFailure s).result = Except.ok none ∧
    (ResolvedLog.resolve cache backendFailure s).result = Except.ok none ∧
    (ResolvedFunction.resolve cache backendFailure s).result = Except.ok none := by
  refine ⟨?_, ?_, ?_⟩ <;>
    simp [ResolvedError.resolve, ResolvedLog.resolve, ResolvedFunction.resolve,
      backendFailure, hc]

/-- C3 witness: a concrete failed lookup (empty cache, failed backend) for
the `Error(string)` selector `0x08c379a0` completes with `None` for all
three kinds. -/
theorem c3_backend_failure_completes_witness :
    (ResolvedError.resolve emptyCache backendFailure ("0x08c379a0")).result = Except.ok none ∧
    (ResolvedLog.resolve emptyCache backendFailure ("0x08c379a0")).result = Except.ok none ∧
    (ResolvedFunction.resolve emptyCache backendFailure ("0x08c379a0")).result = Except.ok none :=
  c3_backend_failure_completes emptyCache ("0x08c379a0") rfl

/-- C2 (amended): `resolve` returns the backend's parseable candidates in the
backend's own (insertion) order — the item-order `filterMap` of the loop
body — and performs no reordering by score. -/
theorem c2_insertion_order (cache : CacheState) (s : String)
    (j items : Json) (results : List Json)
    (hc : cache (cacheKey s) = none)
    (hi : Json.get j ("items") = some items)
    (ha : Json.as_array items = some results) :
    ((ResolvedError.resolve cache (Except.ok (some j)) s).result =
      if results.filterMap processedError = [] then Except.ok none
      else Except.ok (some (results.filterMap processedError))) ∧
    ((ResolvedLog.resolve cache (Except.ok (some j)) s).result =
      if results.filterMap processedLog = [] then Except.ok none
      else Except.ok (some (results.filterMap processedLog))) ∧
    ((ResolvedFunction.resolve cache (Except.ok (some j)) s).result =
      if results.filterMap processedFunction = [] then Except.ok none
      else Except.ok (some (results.filterMap processedFunction))) := by
  refine ⟨?_, ?_, ?_⟩
  · rw [resolveError_backend cache s j items results hc hi ha]
  · rw [resolveLog_backend cache s j items results hc hi ha]
  · rw [resolveFunction_backend cache s j items results hc hi ha]

/-- C2 witness: a backend answer listing `a1(uint256)` before `a(uint256)`
is returned in exactly that order. -/
theorem c2_insertion_order_witness :
    (ResolvedFunction.resolve emptyCache unsortedBackend ("0x12345678")).result =
      Except.ok (some [⟨"a1", "a1(uint256)", ["uint256"], none⟩,
        ⟨"a", "a(uint256)", ["uint256"], none⟩]) := by
  have h := (c2_insertion_order emptyCache ("0x12345678")
    (Json.obj [("items", Json.arr unsortedItems)]) (Json.arr unsortedItems)
    unsortedItems rfl rfl rfl).2.2
  exact h.trans (by rfl)

/-- C2 counterexample: with the backend answer above, the first returned
candidate (`a1(uint256)`, score 977) scores strictly lower than the second
(`a(uint256)`, score 981), so the returned list is not ordered best-first by
the score function. -/
theorem c2_counterexample :
    (ResolvedFunction.resolve emptyCache unsortedBackend ("0xabcdef12")).result =
      Except.ok (some [⟨"a1", "a1(uint256)", ["uint256"], none⟩,
        ⟨"a", "a(uint256)", ["uint256"], none⟩]) ∧
    score_signature ("a(uint256)") > score_signature ("a1(uint256)") :=
  ⟨by rfl, by decide⟩

/-- C8: all three `resolve` implementations address the cache through the
single key `selector.{s}`: (i) each depends on the cache only through its
value at `cacheKey s`; (ii) every cache write any of them performs is at
`cacheKey s`; (iii) a non-empty cached list for the selector — whichever kind
stored it — is returned verbatim (same name/signature/inputs records) by all
three kinds. -/
theorem c8_shared_cache_key (cache cache' : CacheState)
    (backend : BackendResponse) (s : String) :
    (cache (cacheKey s) = cache' (cacheKey s) →
      (ResolvedError.resolve cache backend s = ResolvedError.resolve cache' backend s ∧
       ResolvedLog.resolve cache backend s = ResolvedLog.resolve cache' backend s ∧
       ResolvedFunction.resolve cache backend s = ResolvedFunction.resolve cache' backend s)) ∧
    ((∀ kv ∈ (ResolvedError.resolve cache backend s).cacheWrites, kv.1 = cacheKey s) ∧
     (∀ kv ∈ (ResolvedLog.resolve cache backend s).cacheWrites, kv.1 = cacheKey s) ∧
     (∀ kv ∈ (ResolvedFunction.resolve cache backend s).cacheWrites, kv.1 = cacheKey s)) ∧
    (∀ l, cache (cacheKey s) = some l → l ≠ [] →
      ((ResolvedError.resolve cache backend s).result =
        Except.ok (some (l.map CachedSignature.toError)) ∧
       (ResolvedLog.resolve cache backend s).result =
        Except.ok (some (l.map CachedSignature.toLog)) ∧
       (ResolvedFunction.resolve cache backend s).result =
        Except.ok (some (l.map CachedSignature.toFunction)))) := by
  refine ⟨fun h => ⟨?_, ?_, ?_⟩,
    ⟨resolveError_writes_key cache backend s, resolveLog_writes_key cache backend s,
      resolveFunction_writes_key cache backend s⟩,
    fun l hsome hne => ⟨?_, ?_, ?_⟩⟩
  · unfold ResolvedError.resolve
    rw [h]
  · unfold ResolvedLog.resolve
    rw [h]
  · unfold ResolvedFunction.resolve
    rw [h]
  · rw [resolveError_cached cache backend s l hsome]
    simp [if_neg hne]
  · rw [resolveLog_cached cache backend s l hsome]
    simp [if_neg hne]
  · rw [resolveFunction_cached cache backend s l hsome]
    simp [if_neg hne]

/-- C8 witness: a cached entry stored under `selector.0xdeadbeef` is
returned verbatim by the error, event and function resolvers alike. -/
theorem c8_shared_cache_key_witness :
    (ResolvedError.resolve cacheWithEntry backendFailure ("0xdeadbeef")).result =
      Except.ok (some [⟨"Err", "Err(uint256)", ["uint256"]⟩]) ∧
    (ResolvedLog.resolve cacheWithEntry backendFailure ("0xdeadbeef")).result =
      Except.ok (some [⟨"Err", "Err(uint256)", ["uint256"]⟩]) ∧
    (ResolvedFunction.resolve cacheWithEntry backendFailure ("0xdeadbeef")).result =
      Except.ok (some [⟨"Err", "Err(uint256)", ["uint256"], none⟩]) :=
  (c8_shared_cache_key cacheWithEntry cacheWithEntry backendFailure ("0xdeadbeef")).2.2
    [⟨"Err", "Err(uint256)", ["uint256"]⟩] (by rfl) (by simp)

/-- C9: `resolve` never returns `Some` of an empty list, and it returns
`None` exactly when the candidate list is empty: a cached list is answered
with `None` iff it is empty, and on the backend path the answer is `None`
iff the built signature list is empty. -/
theorem c9_none_iff_empty (cache : CacheState) (backend : BackendResponse)
    (s : String) :
    (∀ l, (ResolvedError.resolve cache backend s).result = Except.ok (some l) → l ≠ []) ∧
    (∀ l, (ResolvedLog.resolve cache backend s).result = Except.ok (some l) → l ≠ []) ∧
    (∀ l, (ResolvedFunction.resolve cache backend s).result = Except.ok (some l) → l ≠ []) ∧
    (∀ cl, cache (cacheKey s) = some cl →
      (((ResolvedError.resolve cache backend s).result = Except.ok none ↔ cl = []) ∧
       ((ResolvedLog.resolve cache backend s).result = Except.ok none ↔ cl = []) ∧
       ((ResolvedFunction.resolve cache backend s).result = Except.ok none ↔ cl = []))) ∧
    (∀ j items results, cache (cacheKey s) = none →
      Json.get j ("items") = some items → Json.as_array items = some results →
      (((ResolvedError.resolve cache (Except.ok (some j)) s).result = Except.ok none ↔
          results.filterMap processedError = []) ∧
       ((ResolvedLog.resolve cache (Except.ok (some j)) s).result = Except.ok none ↔
          results.filterMap processedLog = []) ∧
       ((ResolvedFunction.resolve cache (Except.ok (some j)) s).result = Except.ok none ↔
          results.filterMap processedFunction = []))) := by
  refine ⟨resolveError_some_ne_nil cache backend s, resolveLog_some_ne_nil cache backend s,
    resolveFunction_some_ne_nil cache backend s,
    fun cl hsome => ⟨?_, ?_, ?_⟩, fun j items results hc hi ha => ⟨?_, ?_, ?_⟩⟩
  · rw [resolveError_cached cache backend s cl hsome]
    by_cases hcl : cl = [] <;> simp [hcl]
  · rw [resolveLog_cached cache backend s cl hsome]
    by_cases hcl : cl = [] <;> simp [hcl]
  · rw [resolveFunction_cached cache backend s cl hsome]
    by_cases hcl : cl = [] <;> simp [hcl]
  · rw [resolveError_backend cache s j items results hc hi ha]
    by_cases hL : results.filterMap processedError = [] <;> simp [hL]
  · rw [resolveLog_backend cache s j items results hc hi ha]
    by_cases hL : results.filterMap processedLog = [] <;> simp [hL]
  · rw [resolveFunction_backend cache s j items results hc hi ha]
    by_cases hL : results.filterMap processedFunction = [] <;> simp [hL]

/-- C9 witness: a non-empty cached list yields `Some` of that list and is
indeed non-empty. -/
theorem c9_none_iff_empty_witness :
    (ResolvedError.resolve cacheWithEntry backendFailure ("0xdeadbeef")).result =
      Except.ok (some [⟨"Err", "Err(uint256)", ["uint256"]⟩]) ∧
    ([(⟨"Err", "Err(uint256)", ["uint256"]⟩ : ResolvedError)] ≠ []) :=
  ⟨by rfl,
    (c9_none_iff_empty cacheWithEntry backendFailure ("0xdeadbeef")).1
      [⟨"Err", "Err(uint256)", ["uint256"]⟩] (by rfl)⟩

/-- C6: the dump CSV starts with the header
`last_modified,alias,slot,decoded_type,value`, and (for comma-free field
values) splitting any emitted line on commas recovers exactly the five
fields of the corresponding result row, in that order. -/
theorem c6_dump_csv (rows : List DumpRow) (h : ∀ r ∈ rows, commaFreeRow r) :
    (dump_csv_lines rows).map splitOnComma =
      [["last_modified", "alias", "slot", "decoded_type", "value"]] ++
        rows.map (fun r => [r.last_modified, r.«alias», r.slot, r.decoded_type, r.value]) := by
  simp only [dump_csv_lines, List.singleton_append, List.map_cons, List.map_map]
  refine congrArg₂ List.cons (by decide) ?_
  refine List.map_congr_left (fun r hr => ?_)
  obtain ⟨h1, h2, h3, h4, h5⟩ := h r hr
  exact splitOnComma_five r.last_modified r.«alias» r.slot r.decoded_type r.value h1 h2 h3 h4 h5

/-- C6 witness: one concrete row. -/
theorem c6_dump_csv_witness :
    (dump_csv_lines [⟨"1700000000", "owner", "0", "address", "0xabc"⟩]).map splitOnComma =
      [["last_modified", "alias", "slot", "decoded_type", "value"],
       ["1700000000", "owner", "0", "address", "0xabc"]] :=
  (c6_dump_csv [⟨"1700000000", "owner", "0", "address", "0xabc"⟩]
    (by intro r hr; simp at hr; subst hr; refine ⟨by decide, by decide, by decide, by decide, by decide⟩)).trans
    (by rfl)

/-- C7 (amended): the address regex is what distinguishes on-chain targets
from local bytecode: a target matches iff it is `0x` followed by 40 hex
characters; on a match Snapshot writes under the chain-id/address directory
while Disassemble writes under the address directory alone (no chain-id
component); on a non-match both write under `local`. -/
theorem c7_regex_selects_output_dir (output_path chain_id target : String) :
    (addressRegexIsMatch target = true ↔
      (target.data.length = 42 ∧ target.data.take 2 = ['0', 'x'] ∧
        ∀ c ∈ target.data.drop 2, isHexChar c = true)) ∧
    (addressRegexIsMatch target = true →
      ((disassemble_dir_path output_path target).1 = output_path ++ "/" ++ target ∧
       snapshot_output_path output_path chain_id target =
         output_path ++ "/" ++ chain_id ++ "/" ++ target ++ "/snapshot.csv")) ∧
    (addressRegexIsMatch target = false →
      ((disassemble_dir_path output_path target).1 = output_path ++ "/local" ∧
       snapshot_output_path output_path chain_id target =
         output_path ++ "/local/snapshot.csv")) := by
  refine ⟨addressRegexIsMatch_iff target, fun h => ⟨?_, ?_⟩, fun h => ⟨?_, ?_⟩⟩
  · simp [disassemble_dir_path, h]
  · simp [snapshot_output_path, h]
  · simp [disassemble_dir_path, h]
  · simp [snapshot_output_path, h]

/-- C7 witness: a matching 40-hex-digit target and a non-matching local path
produce the corresponding directories. -/
theorem c7_regex_selects_output_dir_witness :
    ((disassemble_dir_path ("out") addrA).1 = "out" ++ "/" ++ addrA ∧
      snapshot_output_path ("out") "1" addrA = "out" ++ "/" ++ "1" ++ "/" ++ addrA ++ "/snapshot.csv") ∧
    ((disassemble_dir_path ("out") "contract.bin").1 = "out" ++ "/local" ∧
      snapshot_output_path ("out") "1" "contract.bin" = "out" ++ "/local/snapshot.csv") :=
  ⟨(c7_regex_selects_output_dir ("out") "1" addrA).2.1 (by decide),
   (c7_regex_selects_output_dir ("out") "1" "contract.bin").2.2 (by decide)⟩

/-- C7 counterexample: for a matching target, Disassemble's output directory
is `{output}/{target}` — it contains no chain-id path component, so the claim
that output always goes under a chain-id/address directory on a regex match
is false for Disassemble. -/
theorem c7_counterexample :
    addressRegexIsMatch addrA = true ∧
    ¬ isChainIdAddressDir ("out") addrA (disassemble_dir_path ("out") addrA).1 := by
  refine ⟨by decide, ?_⟩
  rintro ⟨chain_id, h⟩
  have hpath : (disassemble_dir_path ("out") addrA).1 = "out" ++ "/" ++ addrA := by decide
  rw [hpath] at h
  have hcount := congrArg (fun t => t.data.count '/') h
  simp only [string_data_append, List.count_append] at hcount
  have h1 : ("out" : String).data.count '/' = 0 := by decide
  have h2 : ("/" : String).data.count '/' = 1 := by decide
  have h3 : addrA.data.count '/' = 0 := by decide
  rw [h1, h2, h3] at hcount
  omega

/-- C10 (amended): for quote-free backend texts, a candidate whose text has
no `(` is silently skipped; for EVERY text containing a `(` — whatever
follows, including characters after the last `)` or no `)` at all — the
inputs are the comma-split of the text after the first `(` with the last `)`
(if any) deleted (`deleteLastOcc`); in particular `name()` produces the
one-element inputs list `[""]`, not an empty list. -/
theorem c10_inputs_construction :
    (∀ item : Json, ∀ s : String, Json.get item ("text") = some (Json.str s) →
      '"' ∉ s.data → '(' ∉ s.data → processSignatureItem item = none) ∧
    (∀ s : String, ∀ nm rest : List Char, '"' ∉ s.data →
      splitOnceChar '(' s.data = some (nm, rest) →
      processSignatureItem (Json.obj [("text", Json.str s)]) =
        some (⟨nm⟩, s, splitOnComma ⟨deleteLastOcc ')' rest⟩)) ∧
    (∀ nm : String, '(' ∉ nm.data → '"' ∉ nm.data →
      processSignatureItem (Json.obj [("text", Json.str (nm ++ "()"))]) =
        some (nm, nm ++ "()", [""])) := by
  have hrender : ∀ s : String, Json.render (Json.str s) = "\"" ++ s ++ "\"" :=
    fun s => rfl
  refine ⟨?_, ?_, ?_⟩
  · intro item s hget hq hp
    simp only [processSignatureItem, hget, hrender s, replaceCharAll_quote_free s hq,
      splitOnceChar_not_mem '(' s.data hp]
  · intro s nm rest hq hsplit
    rw [processSignatureItem_str s hq, hsplit]
    simp only [replace_last_paren_eq_deleteLastOcc]
  · intro nm hp hq
    have hq' : '"' ∉ (nm ++ "()").data := by
      simp only [string_data_append, List.mem_append]
      rintro (h | h)
      · exact hq h
      · simp at h
    rw [processSignatureItem_str (nm ++ "()") hq']
    have hdata : (nm ++ "()").data = nm.data ++ '(' :: [')'] := by
      simp [string_data_append]
    rw [hdata, splitOnceChar_append '(' nm.data [')'] (fun x hx hxc => hp (hxc ▸ hx))]
    have hrl : replace_last_paren [')'] = [] := replace_last_paren_append_close []
    simp only [hrl, string_mk_data]
    rfl

/-- C10 witness: the general clause evaluated at the distinguishing inputs:
`f(x)y` (characters after the last `)`) yields inputs `["xy"]`, `f(uint`
(no `)` at all) yields `["uint"]`, `transfer(address,uint256)` yields
`["address", "uint256"]`, and `name()` yields `[""]`. -/
theorem c10_inputs_construction_witness :
    processSignatureItem (Json.obj [("text", Json.str ("f(x)y"))]) =
      some ("f", "f(x)y", ["xy"]) ∧
    processSignatureItem (Json.obj [("text", Json.str ("f(uint"))]) =
      some ("f", "f(uint", ["uint"]) ∧
    processSignatureItem (Json.obj [("text", Json.str ("transfer(address,uint256)"))]) =
      some ("transfer", "transfer(address,uint256)", ["address", "uint256"]) ∧
    processSignatureItem (Json.obj [("text", Json.str ("name" ++ "()"))]) =
      some ("name", "name" ++ "()", [""]) :=
  ⟨(c10_inputs_construction.2.1 ("f(x)y") ['f'] ['x', ')', 'y'] (by decide)
      (by rfl)).trans (by rfl),
   (c10_inputs_construction.2.1 ("f(uint") ['f'] ['u', 'i', 'n', 't'] (by decide)
      (by rfl)).trans (by rfl),
   (c10_inputs_construction.2.1 ("transfer(address,uint256)") ("transfer").data
      ("address,uint256)").data (by decide) (by rfl)).trans (by rfl),
   c10_inputs_construction.2.2 ("name") (by decide) (by decide)⟩

/-- C10 counterexample: at the text `f(x)y` the code's inputs are `["xy"]`
(it deletes the last `)` from everything after the first `(`), while the
comma-split of the text between the first `(` and the final `)` is `["x"]` —
the claim's description of the general case does not match the code. -/
theorem c10_counterexample :
    ¬ ((processSignatureItem (Json.obj [("text", Json.str ("f(x)y"))])).map
        (fun t => t.2.2) =
      some (splitOnComma (textBetweenParens ("f(x)y")))) := by
  decide
